import Mathlib

/-!
Shallow embedding of the WFC (wave-function-collapse) solver core of the
`bild` repository (crates `block3d_core` and `block3d_algorithm`), together
with proofs settling the specification claims about it.

Modelling conventions:
* Rust `usize` indices (petgraph `NodeIndex`) become `Nat`.
* `f32` coordinates become `ℚ`; the program only casts small integers to
  `f32` and compares/floors them, which is exact, so `ℚ` is faithful.
* `HashMap`/`HashSet` become association lists / lists kept in insertion
  order; the Rust iteration order is unspecified, so insertion order is one
  admissible refinement of it.
* Trait objects (`Heuristic`, `WFCInvariant`) become function parameters.
* Observers only receive notifications and never change solver state, so
  they are omitted from the state.
-/

namespace WFC

/-- Discrete rotation states, from `block3d_core::orientation::Orientation`
(strum `EnumIter` yields declaration order). -/
inductive Orientation where
  | O0
  | O90
  | O180
  | O270
deriving DecidableEq

/-- Iteration order of `Orientation::iter()` (declaration order). -/
def orientationIter : List Orientation :=
  [Orientation.O0, Orientation.O90, Orientation.O180, Orientation.O270]

/-- Connector interfaces, from `block3d_core::connection::ConnectorInterface`. -/
inductive ConnectorInterface where
  | ActiveSurface
  | PassiveSurface
  | MetalPad
  | SolderBall
  | WireBondPad
  | ThermalPad
  | MountingSurface
  | HeatSinkInterface
  | UnderfillInterface
  | PCBTrace
  | Via
  | AirGap
deriving DecidableEq

/-- An interface together with its rotation, from
`block3d_core::connection::OrientedInterface`. -/
structure OrientedInterface where
  interface : ConnectorInterface
  orientation : Orientation
deriving DecidableEq

/-- A block face, from `block3d_core::face::Face`. -/
structure Face where
  oriented_interface : OrientedInterface
deriving DecidableEq

/-- The `Block3DLike` capability as a record: `size()`, `faces()`,
`ranking()`, `symbol()`.  `Default` and `Clone` are implicit in the
value-level treatment; the palette supplies concrete values. -/
structure Block where
  size : ℕ × ℕ × ℕ
  faces : List Face
  ranking : ℚ
  symbol : String
deriving DecidableEq

/-- A connection point on a block, from `block3d_algorithm::connection::ConnectionPoint`. -/
structure ConnectionPoint where
  interface : OrientedInterface
  position_offset : ℚ × ℚ × ℚ
  connected_to : Option (ℕ × String)
deriving DecidableEq

/-- `ConnectionPoint::is_compatible_with` — the source returns `true`
unconditionally for every interface argument. -/
def ConnectionPoint.isCompatibleWith (_self : ConnectionPoint)
    (_other : OrientedInterface) : Bool :=
  true

/-- The solver errors, from `block3d_algorithm::wfc::solver::error::WFCError`. -/
inductive WFCError where
  | NoValidStates (node : ℕ)
  | PropagationFailed (msg : String)
  | IncompleteCollapse (node : ℕ)
  | InvalidState (msg : String)
  | NoValidStatesAfterInvariants (node : ℕ)
  | HeuristicFailure (node : ℕ)
  | MultipleStatesRemain (node : ℕ) (count : ℕ)
  | NoSolution
  | NodeNotFound (node : ℕ)
  | NodeNotFoundAtPosition (pos : ℕ × ℕ × ℕ)
deriving DecidableEq

/-- Per-cell candidate/final assignment, from
`block3d_algorithm::wfc::solver::state::NodeState`.  The `connections`
`HashMap<String, ConnectionPoint>` is an association list in insertion
order. -/
structure NodeState where
  block : Block
  orientation : Orientation
  position : ℕ × ℕ × ℕ
  connections : List (String × ConnectionPoint)
  is_connected : Bool
deriving DecidableEq

/-- Lookup in an association list (first matching key), the behaviour of
`HashMap::get` under the insertion-order refinement. -/
def assocFind {κ β : Type} [DecidableEq κ] (k : κ) : List (κ × β) → Option β
  | [] => none
  | (k2, v) :: rest => if k2 = k then some v else assocFind k rest

/-- Insert-or-replace in an association list (`HashMap::insert`): an existing
key keeps its position, a new key is appended. -/
def assocInsert {κ β : Type} [DecidableEq κ] (k : κ) (v : β) :
    List (κ × β) → List (κ × β)
  | [] => [(k, v)]
  | (k2, v2) :: rest =>
    if k2 = k then (k2, v) :: rest else (k2, v2) :: assocInsert k v rest

/-- `NodeState::new`: default position `(0,0,0)`, no connection points. -/
def NodeState.new (block : Block) (orientation : Orientation) : NodeState :=
  { block := block
    orientation := orientation
    position := (0, 0, 0)
    connections := []
    is_connected := false }

/-- Body of `NodeState::initialize_connections`: one connection point per
face, id `conn_<index>`, offset `(0, height, 0)` for face index 0 (top),
the block origin for every other index. -/
def initConnections (block : Block) : List (String × ConnectionPoint) :=
  block.faces.enum.map fun p =>
    let offset : ℚ × ℚ × ℚ :=
      if p.1 = 0 then (0, (block.size.2.1 : ℚ), 0) else (0, 0, 0)
    ("conn_" ++ toString p.1,
     { interface := p.2.oriented_interface
       position_offset := offset
       connected_to := none })

/-- `NodeState::with_position`: `new`, then set the position and derive the
connection points from the block's faces. -/
def NodeState.withPosition (block : Block) (orientation : Orientation)
    (position : ℕ × ℕ × ℕ) : NodeState :=
  { NodeState.new block orientation with
      position := position
      connections := initConnections block }

/-- `NodeState::can_connect_to`: the first pair of connection points across
both nodes whose interfaces are compatible (always, per
`is_compatible_with`). -/
def NodeState.canConnectTo (a b : NodeState) : Option (String × String) :=
  a.connections.findSome? fun sp =>
    b.connections.findSome? fun op =>
      if sp.2.isCompatibleWith op.2.interface then some (sp.1, op.1) else none

/-- `NodeState::world_position`: the grid position cast to floating point. -/
def NodeState.worldPosition (a : NodeState) : ℚ × ℚ × ℚ :=
  ((a.position.1 : ℚ), (a.position.2.1 : ℚ), (a.position.2.2 : ℚ))

/-- Block size cast to floating point, as done at the call sites of
`SpatialGrid::add_node` and in `collides_with`. -/
def Block.sizeQ (b : Block) : ℚ × ℚ × ℚ :=
  ((b.size.1 : ℚ), (b.size.2.1 : ℚ), (b.size.2.2 : ℚ))

/-- `NodeState::collides_with`: axis-aligned bounding-box overlap between
`[world_position, world_position + size]` boxes. -/
def NodeState.collidesWith (a b : NodeState) : Bool :=
  let sp := a.worldPosition
  let op := b.worldPosition
  let ss := a.block.sizeQ
  let os := b.block.sizeQ
  !(sp.1 + ss.1 ≤ op.1 || op.1 + os.1 ≤ sp.1 ||
    sp.2.1 + ss.2.1 ≤ op.2.1 || op.2.1 + os.2.1 ≤ sp.2.1 ||
    sp.2.2 + ss.2.2 ≤ op.2.2 || op.2.2 + os.2.2 ≤ sp.2.2)

/-- Uniform-cell broad-phase index, from
`block3d_algorithm::wfc::solver::spatial_grid::SpatialGrid`.  `cells` is the
`HashMap<(i32,i32,i32), Vec<NodeIndex>>` as an association list in key
insertion order. -/
structure SpatialGrid where
  cells : List ((ℤ × ℤ × ℤ) × List ℕ)
  cell_size : ℚ

/-- `SpatialGrid::new`. -/
def SpatialGrid.new (cell_size : ℚ) : SpatialGrid :=
  { cells := [], cell_size := cell_size }

/-- `SpatialGrid::grid_coords`: per-axis floor of `position / cell_size`. -/
def SpatialGrid.gridCoords (g : SpatialGrid) (p : ℚ × ℚ × ℚ) : ℤ × ℤ × ℤ :=
  (⌊p.1 / g.cell_size⌋, ⌊p.2.1 / g.cell_size⌋, ⌊p.2.2 / g.cell_size⌋)

/-- Inclusive integer range `a..=b` as a list. -/
def rangeInt (a b : ℤ) : List ℤ :=
  (List.range (b + 1 - a).toNat).map fun i => a + Int.ofNat i

/-- The triple loop `min_cell..=max_cell` shared by `add_node` and
`potential_collisions`. -/
def cellRange (mn mx : ℤ × ℤ × ℤ) : List (ℤ × ℤ × ℤ) :=
  (rangeInt mn.1 mx.1).flatMap fun x =>
    (rangeInt mn.2.1 mx.2.1).flatMap fun y =>
      (rangeInt mn.2.2 mx.2.2).map fun z => (x, y, z)

/-- `self.cells.entry(c).or_insert_with(Vec::new).push(n)`: push onto the
existing bucket, or append a fresh singleton bucket. -/
def bucketPush (cells : List ((ℤ × ℤ × ℤ) × List ℕ)) (c : ℤ × ℤ × ℤ)
    (n : ℕ) : List ((ℤ × ℤ × ℤ) × List ℕ) :=
  match cells with
  | [] => [(c, [n])]
  | (k, l) :: rest =>
    if k = c then (k, l ++ [n]) :: rest else (k, l) :: bucketPush rest c n

/-- `SpatialGrid::add_node`: insert the handle into every cell overlapped by
the box `[position, position + size]`. -/
def SpatialGrid.addNode (g : SpatialGrid) (n : ℕ) (position size : ℚ × ℚ × ℚ) :
    SpatialGrid :=
  let minCell := g.gridCoords position
  let maxCell := g.gridCoords
    (position.1 + size.1, position.2.1 + size.2.1, position.2.2 + size.2.2)
  let cells2 := (cellRange minCell maxCell).foldl
    (fun cs c => bucketPush cs c n) g.cells
  { g with cells := cells2 }

/-- `SpatialGrid::potential_collisions`: de-duplicated union of the handles
registered in the overlapped cells (the `HashSet` collecting step is the
`dedup` of the concatenation under the insertion-order refinement). -/
def SpatialGrid.potentialCollisions (g : SpatialGrid)
    (position size : ℚ × ℚ × ℚ) : List ℕ :=
  let minCell := g.gridCoords position
  let maxCell := g.gridCoords
    (position.1 + size.1, position.2.1 + size.2.1, position.2.2 + size.2.2)
  ((cellRange minCell maxCell).flatMap fun c =>
    (assocFind c g.cells).getD []).dedup

/-- `SpatialGrid::remove_node`: retain only other handles in every bucket,
then drop buckets left empty. -/
def SpatialGrid.removeNode (g : SpatialGrid) (n : ℕ) : SpatialGrid :=
  let cells2 :=
    (g.cells.map fun e => (e.1, e.2.filter fun m => decide (m ≠ n))).filter
      fun e => !e.2.isEmpty
  { g with cells := cells2 }

/-- A pairwise rule over two candidate node assignments, from
`CompatibilityRule` (only its `check` closure carries semantics). -/
structure CompatibilityRule where
  check : NodeState → NodeState → Bool

/-- Memoized conjunction of pairwise rules, from `CompatibilityTable`.  The
cache `HashMap<(NodeIndex, NodeIndex), bool>` is an association list. -/
structure CompatibilityTable where
  rules : List CompatibilityRule
  cache : List ((ℕ × ℕ) × Bool)

/-- `CompatibilityTable::new`. -/
def CompatibilityTable.new : CompatibilityTable :=
  { rules := [], cache := [] }

/-- `CompatibilityTable::add_rule`: append the rule, then `rebuild_cache`
(which clears the cache). -/
def CompatibilityTable.addRule (t : CompatibilityTable)
    (rule : CompatibilityRule) : CompatibilityTable :=
  { rules := t.rules ++ [rule], cache := [] }

/-- Short-circuit evaluation of `rules.iter().all(|rule| (rule.check)(s1, s2))`,
instrumented with the number of rule predicates actually invoked. -/
def runRules : List CompatibilityRule → NodeState → NodeState → Bool × ℕ
  | [], _, _ => (true, 0)
  | r :: rs, s1, s2 =>
    if r.check s1 s2 then
      let p := runRules rs s1 s2
      (p.1, p.2 + 1)
    else (false, 1)

/-- `CompatibilityTable::is_compatible`: on a cache hit return the memoized
boolean; on a miss evaluate all rules, cache the result keyed by the ordered
node pair, and return it.  The returned `ℕ` instruments how many rule
predicates were invoked by this call (0 on a hit). -/
def CompatibilityTable.isCompatible (t : CompatibilityTable) (node1 node2 : ℕ)
    (state1 state2 : NodeState) : Bool × CompatibilityTable × ℕ :=
  match assocFind (node1, node2) t.cache with
  | some cached => (cached, t, 0)
  | none =>
    let p := runRules t.rules state1 state2
    (p.1, { t with cache := assocInsert (node1, node2) p.1 t.cache }, p.2)

/-- Insertion by key, auxiliary to `sortByKey`. -/
def insertByKey {a : Type} (f : a → ℕ) (x : a) : List a → List a
  | [] => [x]
  | y :: t => if f x ≤ f y then x :: y :: t else y :: insertByKey f x t

/-- Stable sort by key, modelling Rust `Vec::sort_by_key` (which is stable;
any stable sort is an admissible refinement). -/
def sortByKey {a : Type} (f : a → ℕ) : List a → List a
  | [] => []
  | x :: t => insertByKey f x (sortByKey f t)

/-- The `candidates` vector of `select_node_to_collapse`: each uncollapsed
node with a non-empty candidate list, paired with its entropy (list
length). -/
def entropyCandidates (solverStates : List (List NodeState))
    (collapsed : List ℕ) : List (ℕ × ℕ) :=
  solverStates.enum.filterMap fun p =>
    if p.1 ∉ collapsed && !p.2.isEmpty then some (p.1, p.2.length) else none

/-- `WeightedRandomHeuristic::select_node_to_collapse`.  `solverStates` is
the per-node candidate-state array, `collapsed` the collapsed set, and `r`
models the thread-rng draw: the code picks index `gen_range(0..len)`, here
`r % len`. -/
def selectNodeToCollapse (solverStates : List (List NodeState))
    (collapsed : List ℕ) (r : ℕ) : Option ℕ :=
  let candidates := entropyCandidates solverStates collapsed
  if candidates.isEmpty then none
  else
    let sorted := sortByKey (fun c => c.2) candidates
    let minEntropy := (sorted.headD (0, 0)).2
    let minCandidates := (sorted.filter fun c => c.2 = minEntropy).map fun c => c.1
    minCandidates[r % minCandidates.length]?

/-- Directed graph with `NodeState` payloads, from `WFCGraph` over petgraph.
Nodes live in an arena indexed by insertion order; edges are (source,
target) pairs in insertion order. -/
structure WFCGraph where
  nodes : List NodeState
  edges : List (ℕ × ℕ)

/-- `Graph::add_node`: append, returning the fresh index. -/
def WFCGraph.addNode (g : WFCGraph) (s : NodeState) : WFCGraph × ℕ :=
  ({ g with nodes := g.nodes ++ [s] }, g.nodes.length)

/-- `Graph::node_weight`. -/
def WFCGraph.nodeWeight (g : WFCGraph) (n : ℕ) : Option NodeState :=
  g.nodes[n]?

/-- `Graph::node_weight_mut` followed by overwrite: replace node `n`'s
payload, a no-op when `n` is out of range. -/
def WFCGraph.setNode (g : WFCGraph) (n : ℕ) (s : NodeState) : WFCGraph :=
  { g with nodes := g.nodes.set n s }

/-- Successors of `n` in edge-insertion order.  petgraph iterates the
adjacency list newest-edge-first and the DFS pushes each onto its stack, so
the net visiting order equals insertion order; `dfsNext` below relies on
this. -/
def WFCGraph.neighbors (g : WFCGraph) (n : ℕ) : List ℕ :=
  (g.edges.filter fun e => e.1 = n).map fun e => e.2

/-- Arena index assigned to cell `(x, y, z)` by the `grid_graph` triple loop
(`x` outermost, `z` innermost, `add_node` returns sequential indices). -/
def gridIndex (h d x y z : ℕ) : ℕ :=
  (x * h + y) * d + z

/-- `WFCGraph::grid_graph`: one node per cell carrying
`with_position(T::default(), Orientation::default(), (x,y,z))`, and a
directed edge from each cell to its `+x`, `+y`, `+z` neighbor when that
neighbor exists. -/
def gridGraph (defaultBlock : Block) (dims : ℕ × ℕ × ℕ) : WFCGraph :=
  let w := dims.1
  let h := dims.2.1
  let d := dims.2.2
  let nodes := (List.range w).flatMap fun x =>
    (List.range h).flatMap fun y =>
      (List.range d).map fun z =>
        NodeState.withPosition defaultBlock Orientation.O0 (x, y, z)
  let edges := (List.range w).flatMap fun x =>
    (List.range h).flatMap fun y =>
      (List.range d).flatMap fun z =>
        (if x < w - 1 then [(gridIndex h d x y z, gridIndex h d (x + 1) y z)] else []) ++
        (if y < h - 1 then [(gridIndex h d x y z, gridIndex h d x (y + 1) z)] else []) ++
        (if z < d - 1 then [(gridIndex h d x y z, gridIndex h d x y (z + 1))] else [])
  { nodes := nodes, edges := edges }

/-- Solver state: the fields of `WFCSolver` that the algorithm reads and
writes (graph, collapsed set, palette, spatial grid, connection registry).
The heuristic and invariants are trait objects and become parameters of the
operations; observers and the unused `stack`/`compatibility` fields carry no
algorithmic state. -/
structure SolverState where
  graph : WFCGraph
  collapsed : List ℕ
  blockSet : List Block
  spatialGrid : SpatialGrid
  connections : List (ℕ × List (String × (ℕ × String)))

/-- Type of `WFCInvariant::check` (read-only view of the solver). -/
def Invariant : Type :=
  ℕ → NodeState → SolverState → Bool

/-- Type of `Heuristic::select_state_for_node`. -/
def Sel : Type :=
  ℕ → List NodeState → Option NodeState

/-- `WFCSolver::would_collide`: broad-phase query then exact
`collides_with` against each candidate's current graph state. -/
def wouldCollide (s : SolverState) (state : NodeState) : Bool :=
  let position := state.worldPosition
  let size := state.block.sizeQ
  let candidates := s.spatialGrid.potentialCollisions position size
  candidates.any fun c =>
    match s.graph.nodeWeight c with
    | some cs => state.collidesWith cs
    | none => false

/-- `WFCSolver::can_connect_to_existing`: true when the collapsed set is
empty, else true iff some collapsed node's state is connectable. -/
def canConnectToExisting (s : SolverState) (state : NodeState) : Bool :=
  if s.collapsed.isEmpty then true
  else s.collapsed.any fun c =>
    match s.graph.nodeWeight c with
    | some cs => (state.canConnectTo cs).isSome
    | none => false

/-- The `palette × Orientation` candidate instantiation of `collapse_node`:
every palette block in every orientation, `with_position` at `pos`. -/
def allCandidateStates (s : SolverState) (pos : ℕ × ℕ × ℕ) : List NodeState :=
  s.blockSet.flatMap fun b =>
    orientationIter.map fun o => NodeState.withPosition b o pos

/-- Valid-state computation of `collapse_node`: first the combined filter
(invariants, no collision, and — short-circuited away when the collapsed
set is empty — connectivity), then, when the collapsed set is empty, the
list is recomputed with only the invariant filter, discarding the first
result. -/
def collapseValid (invs : List Invariant) (s : SolverState) (node : ℕ)
    (pos : ℕ × ℕ × ℕ) : List NodeState :=
  let validStates := (allCandidateStates s pos).filter fun st =>
    (invs.all fun inv => inv node st s) &&
    !(wouldCollide s st) &&
    (s.collapsed.isEmpty || canConnectToExisting s st)
  if s.collapsed.isEmpty then
    (allCandidateStates s pos).filter fun st =>
      invs.all fun inv => inv node st s
  else validStates

/-- `entry(node).or_insert_with(HashMap::new).insert(sid, v)` on the
connection registry. -/
def registryInsert (conns : List (ℕ × List (String × (ℕ × String))))
    (node : ℕ) (sid : String) (v : ℕ × String) :
    List (ℕ × List (String × (ℕ × String))) :=
  match conns with
  | [] => [(node, [(sid, v)])]
  | (n2, m) :: rest =>
    if n2 = node then (n2, assocInsert sid v m) :: rest
    else (n2, m) :: registryInsert rest node sid v

/-- The `node_weight_mut` block of `establish_connections`: when node `n`
exists and has connection point `sid`, record the binding on that point and
set `is_connected`. -/
def updateNodeConn (g : WFCGraph) (n : ℕ) (sid : String) (v : ℕ × String) :
    WFCGraph :=
  match g.nodeWeight n with
  | none => g
  | some st =>
    match assocFind sid st.connections with
    | none => g
    | some cp =>
      g.setNode n
        { st with
            connections := assocInsert sid { cp with connected_to := some v } st.connections
            is_connected := true }

/-- The `possible_connections` vector of `establish_connections`: every
(collapsed node, self connection id, other connection id) triple offered by
`can_connect_to` against a collapsed node other than `node`. -/
def possibleConnections (s : SolverState) (node : ℕ) (state : NodeState) :
    List (ℕ × String × String) :=
  s.collapsed.filterMap fun other =>
    if other = node then none
    else
      match s.graph.nodeWeight other with
      | none => none
      | some otherState =>
        match state.canConnectTo otherState with
        | none => none
        | some (sid, oid) => some (other, sid, oid)

/-- `WFCSolver::establish_connections`: skip when no block is collapsed yet;
otherwise commit only the first possibility, mirroring it in the registry
and in both node states. -/
def establishConnections (s : SolverState) (node : ℕ) (state : NodeState) :
    SolverState :=
  if s.collapsed.isEmpty then s
  else
    match possibleConnections s node state with
    | [] => s
    | (other, sid, oid) :: _ =>
      let conns1 := registryInsert s.connections node sid (other, oid)
      let conns2 := registryInsert conns1 other oid (node, sid)
      let g1 := updateNodeConn s.graph node sid (other, oid)
      let g2 := updateNodeConn g1 other oid (node, sid)
      { s with connections := conns2, graph := g2 }

/-- `WFCSolver::collapse_node`: skip if collapsed; compute the valid states;
fail with `NoValidStatesAfterInvariants` when none survive; let the
heuristic pick (else `HeuristicFailure`); then commit — overwrite the graph
state, insert into the spatial grid, establish connections, and add to the
collapsed set.  Observer notification and invariant propagation do not
change solver state and are omitted. -/
def collapseNode (invs : List Invariant) (sel : Sel) (s : SolverState)
    (node : ℕ) : Except WFCError (NodeState × SolverState) :=
  match s.graph.nodeWeight node with
  | none => Except.error (WFCError.NodeNotFound node)
  | some nodeState =>
    if node ∈ s.collapsed then Except.ok (nodeState, s)
    else
      let validStates := collapseValid invs s node nodeState.position
      if validStates.isEmpty then
        Except.error (WFCError.NoValidStatesAfterInvariants node)
      else
        match sel node validStates with
        | none => Except.error (WFCError.HeuristicFailure node)
        | some selectedState =>
          let g1 := s.graph.setNode node selectedState
          let grid1 := s.spatialGrid.addNode node
            ((selectedState.position.1 : ℚ), (selectedState.position.2.1 : ℚ),
             (selectedState.position.2.2 : ℚ))
            selectedState.block.sizeQ
          let s1 := { s with graph := g1, spatialGrid := grid1 }
          let s2 := establishConnections s1 node selectedState
          let s3 := { s2 with collapsed := s2.collapsed ++ [node] }
          Except.ok (selectedState, s3)

/-- petgraph DFS state: explicit stack (head = top) plus discovered set. -/
structure DfsState where
  stack : List ℕ
  discovered : List ℕ

/-- petgraph `Dfs::next`: pop until an undiscovered node is found, mark it,
push its not-yet-discovered successors, and return it.  Successors end up
popped in edge-insertion order (see `WFCGraph.neighbors`). -/
def dfsNext (g : WFCGraph) : DfsState → Option (ℕ × DfsState)
  | { stack := [], discovered := _ } => none
  | { stack := n :: rest, discovered := disc } =>
    if n ∈ disc then dfsNext g { stack := rest, discovered := disc }
    else
      let disc2 := disc ++ [n]
      let pushed := (g.neighbors n).filter fun m => m ∉ disc2
      some (n, { stack := pushed ++ rest, discovered := disc2 })

/-- `WFCSolver::backtrack`: pop the most recent history entry (`Vec::pop`,
so the last element), remove that node from the spatial grid and the
connection registry, restore its node state, and push it back onto the DFS
stack for revisit; `NoSolution` when the history stack is empty (or the
node has no weight). -/
def backtrack (s : SolverState) (dfs : DfsState)
    (hist : List (ℕ × NodeState)) :
    Except WFCError (Bool × SolverState × DfsState × List (ℕ × NodeState)) :=
  match hist.getLast? with
  | none => Except.error WFCError.NoSolution
  | some (prevNode, prevState) =>
    let grid1 := s.spatialGrid.removeNode prevNode
    let conns1 := s.connections.filter fun e => decide (e.1 ≠ prevNode)
    match s.graph.nodeWeight prevNode with
    | none => Except.error WFCError.NoSolution
    | some _ =>
      let s1 := { s with
        graph := s.graph.setNode prevNode prevState
        spatialGrid := grid1
        connections := conns1 }
      Except.ok (true, s1, { dfs with stack := prevNode :: dfs.stack },
        hist.dropLast)

/-- Main loop of `WFCSolver::solve`, with explicit DFS and history stacks.
`fuel` bounds the number of loop iterations (the Rust loop runs at most
once per node discovery plus re-pushes, all finite); every concrete run
below is given ample fuel. -/
def solveLoop (invs : List Invariant) (sel : Sel) :
    ℕ → SolverState → DfsState → List (ℕ × NodeState) →
    Except WFCError SolverState
  | 0, _, _, _ => Except.error WFCError.NoSolution
  | fuel + 1, s, dfs, hist =>
    match dfsNext s.graph dfs with
    | none => Except.ok s
    | some (node, dfs1) =>
      match s.graph.nodeWeight node with
      | none => Except.error (WFCError.NodeNotFound node)
      | some nodeState =>
        let hist1 := hist ++ [(node, nodeState)]
        match collapseNode invs sel s node with
        | Except.ok r => solveLoop invs sel fuel r.2 dfs1 hist1
        | Except.error _ =>
          match backtrack s dfs1 hist1 with
          | Except.ok (true, s2, dfs2, hist2) =>
            match collapseNode invs sel s2 node with
            | Except.ok r2 => solveLoop invs sel fuel r2.2 dfs2 hist2
            | Except.error e => Except.error e
          | _ => Except.error WFCError.NoSolution
  termination_by fuel => fuel

/-- `WFCSolver::solve`: `initialize_states` is a no-op; a fresh seed node
(`NodeState::new(T::default(), Orientation::default())`) is added to the
graph, the DFS starts from it, and the loop runs with an empty history
stack.  `WFCSolver::new` supplies the empty collapsed set, empty registry,
and a `SpatialGrid` of cell size 1. -/
def solve (invs : List Invariant) (sel : Sel) (defaultBlock : Block)
    (graph : WFCGraph) (palette : List Block) (fuel : ℕ) :
    Except WFCError SolverState :=
  let p := graph.addNode (NodeState.new defaultBlock Orientation.O0)
  let s0 : SolverState :=
    { graph := p.1
      collapsed := []
      blockSet := palette
      spatialGrid := SpatialGrid.new 1
      connections := [] }
  let dfs0 : DfsState := { stack := [p.2], discovered := [] }
  solveLoop invs sel fuel s0 dfs0 []

/-- `WFCSolver::find_node_at_position`: linear scan for a matching stored
position. -/
def findNodeAtPosition (s : SolverState) (position : ℕ × ℕ × ℕ) : Option ℕ :=
  (s.graph.nodes.enum.find? fun p => p.2.position = position).map fun p => p.1

section Fixtures

/-- Sample interface used by the concrete fixtures. -/
def sampleInterface : OrientedInterface :=
  { interface := ConnectorInterface.MetalPad, orientation := Orientation.O0 }

/-- Unit block with one face (so one connection point). -/
def blk1 : Block :=
  { size := (1, 1, 1), faces := [{ oriented_interface := sampleInterface }],
    ranking := 1, symbol := "a" }

/-- A 2 x 1 x 1 block with one face. -/
def blk2 : Block :=
  { size := (2, 1, 1), faces := [{ oriented_interface := sampleInterface }],
    ranking := 1, symbol := "b" }

/-- A block with no faces (no connection points). -/
def blk0 : Block :=
  { size := (1, 1, 1), faces := [], ranking := 1, symbol := "o" }

/-- Deterministic instantiation of `Heuristic::select_state_for_node`: pick
the first valid state (`WeightedRandomHeuristic` picks a random one; any
choice from the list is an admissible refinement and the claims under test
do not depend on which). -/
def pickFirst : Sel := fun _ l => l.head?

end Fixtures

/-- Membership of the inserted key after `assocInsert`. -/
theorem assocFind_assocInsert_self {κ β : Type} [DecidableEq κ] (k : κ)
    (v : β) (l : List (κ × β)) : assocFind k (assocInsert k v l) = some v := by
  induction l with
  | nil => simp [assocInsert, assocFind]
  | cons e rest ih =>
    by_cases h : e.1 = k
    · cases e
      simp_all [assocInsert, assocFind]
    · cases e
      simp_all [assocInsert, assocFind]

/-- CLAIM C6 — `CompatibilityTable::is_compatible` is idempotent: calling it
twice with the same node pair and the same states yields the same boolean,
the second call invokes zero rule predicates (a cache hit), and `add_rule`
clears the entire cache. -/
theorem c6_compat_idempotent (t : CompatibilityTable) (n1 n2 : ℕ)
    (s1 s2 : NodeState) (rule : CompatibilityRule) :
    ((t.isCompatible n1 n2 s1 s2).2.1.isCompatible n1 n2 s1 s2).1 =
      (t.isCompatible n1 n2 s1 s2).1 ∧
    ((t.isCompatible n1 n2 s1 s2).2.1.isCompatible n1 n2 s1 s2).2.2 = 0 ∧
    (t.addRule rule).cache = [] := by
  refine ⟨?_, ?_, rfl⟩ <;>
  · unfold CompatibilityTable.isCompatible
    cases h : assocFind (n1, n2) t.cache with
    | some c => simp [h]
    | none => simp [h, assocFind_assocInsert_self]

/-- CLAIM C10 — the memo cache is keyed only by the ordered node pair: after
a first (cache-missing) call with states `s1, s2`, a second call with the
same pair returns the boolean computed from `s1, s2`, whatever states the
second call passes. -/
theorem c10_cache_ignores_states (t : CompatibilityTable) (n1 n2 : ℕ)
    (s1 s2 t1 t2 : NodeState) (hmiss : assocFind (n1, n2) t.cache = none) :
    ((t.isCompatible n1 n2 s1 s2).2.1.isCompatible n1 n2 t1 t2).1 =
      (runRules t.rules s1 s2).1 := by
  unfold CompatibilityTable.isCompatible
  simp [hmiss, assocFind_assocInsert_self]

/-- Call-counting rule fixture for the C10 witness: accepts exactly the
states whose first argument has orientation `O0`. -/
def ruleO0 : CompatibilityRule :=
  { check := fun a _ =>
      match a.orientation with
      | Orientation.O0 => true
      | _ => false }

/-- Table fixture holding `ruleO0` and an empty cache. -/
def tableO0 : CompatibilityTable :=
  { rules := [ruleO0], cache := [] }

/-- State fixtures for the C10 witness: same block, different orientations,
on which `ruleO0` evaluates differently. -/
def stO0 : NodeState := NodeState.withPosition blk1 Orientation.O0 (0, 0, 0)

/-- Companion fixture to `stO0` with orientation `O90`. -/
def stO90 : NodeState := NodeState.withPosition blk1 Orientation.O90 (0, 0, 0)

/-- Witness for C10: with a fresh table the first call memoizes `true` from
`stO0`; the second call passes `stO90`, on which the rules would evaluate to
`false`, yet still returns the memoized `true`. -/
theorem c10_cache_ignores_states_witness :
    assocFind ((0 : ℕ), (1 : ℕ)) tableO0.cache = none ∧
    ((tableO0.isCompatible 0 1 stO0 stO0).2.1.isCompatible 0 1 stO90 stO90).1 = true ∧
    (runRules tableO0.rules stO90 stO90).1 = false := by
  refine ⟨rfl, ?_, by with_unfolding_all rfl⟩
  rw [c10_cache_ignores_states tableO0 0 1 stO0 stO0 stO90 stO90 rfl]
  with_unfolding_all rfl

/-- CLAIM C9 — `can_connect_to` returns `Some` exactly when both states have
at least one connection point (because `is_compatible_with` is identically
`true`), and any two states built by `with_position` from blocks with
non-empty face lists are connectable. -/
theorem c9_can_connect :
    (∀ a b : NodeState,
      (a.canConnectTo b).isSome = true ↔
        (a.connections ≠ [] ∧ b.connections ≠ [])) ∧
    (∀ (b1 : Block) (o1 : Orientation) (p1 : ℕ × ℕ × ℕ) (b2 : Block)
       (o2 : Orientation) (p2 : ℕ × ℕ × ℕ), b1.faces ≠ [] → b2.faces ≠ [] →
      ((NodeState.withPosition b1 o1 p1).canConnectTo
        (NodeState.withPosition b2 o2 p2)).isSome = true) := by
  have key : ∀ a b : NodeState,
      (a.canConnectTo b).isSome = true ↔
        (a.connections ≠ [] ∧ b.connections ≠ []) := by
    intro a b
    unfold NodeState.canConnectTo
    cases ha : a.connections with
    | nil => simp
    | cons sa ta =>
      cases hb : b.connections with
      | nil =>
        simp only [List.findSome?_nil, ne_eq, not_true_eq_false, and_false,
          iff_false]
        have : ∀ l : List (String × ConnectionPoint),
            (l.findSome? fun sp =>
              ([] : List (String × ConnectionPoint)).findSome? fun op =>
                if sp.2.isCompatibleWith op.2.interface then some (sp.1, op.1)
                else none) = none := by
          intro l
          induction l with
          | nil => simp
          | cons x xs ih => simp [List.findSome?_cons, ih]
        simp [this]
      | cons ob tb => simp [List.findSome?_cons, ConnectionPoint.isCompatibleWith]
  refine ⟨key, fun b1 o1 p1 b2 o2 p2 h1 h2 => ?_⟩
  rw [key]
  constructor <;>
  · simp only [NodeState.withPosition, NodeState.new, initConnections, ne_eq,
      List.map_eq_nil_iff, List.enum_eq_nil]
    assumption

/-- Witness for C9: two `with_position` states over the one-face block are
connectable, and the face-list hypotheses hold for `blk1`. -/
theorem c9_can_connect_witness :
    blk1.faces ≠ [] ∧
    ((NodeState.withPosition blk1 Orientation.O0 (0, 0, 0)).canConnectTo
      (NodeState.withPosition blk1 Orientation.O90 (1, 0, 0))).isSome = true := by
  refine ⟨by decide, ?_⟩
  exact c9_can_connect.2 blk1 Orientation.O0 (0, 0, 0) blk1 Orientation.O90
    (1, 0, 0) (by decide) (by decide)

/-- Keys found by `assocFind` name actual entries of the list. -/
theorem assocFind_mem {κ β : Type} [DecidableEq κ] {k : κ} {v : β}
    {l : List (κ × β)} (h : assocFind k l = some v) : (k, v) ∈ l := by
  induction l with
  | nil => simp [assocFind] at h
  | cons e rest ih =>
    rw [assocFind] at h
    by_cases he : e.1 = k
    · rw [if_pos he] at h
      cases e
      cases h
      simp_all
    · rw [if_neg he] at h
      exact List.mem_cons_of_mem _ (ih h)

/-- The pushed handle is present in the bucket of its own cell. -/
theorem bucketPush_self (cells : List ((ℤ × ℤ × ℤ) × List ℕ))
    (c : ℤ × ℤ × ℤ) (n : ℕ) :
    ∃ l, assocFind c (bucketPush cells c n) = some l ∧ n ∈ l := by
  induction cells with
  | nil => exact ⟨[n], by simp [bucketPush, assocFind], by simp⟩
  | cons e rest ih =>
    by_cases he : e.1 = c
    · refine ⟨e.2 ++ [n], ?_, by simp⟩
      cases e
      simp_all [bucketPush, assocFind]
    · obtain ⟨l, hf, hn⟩ := ih
      refine ⟨l, ?_, hn⟩
      cases e
      simp_all [bucketPush, assocFind]

/-- `bucketPush` never removes a handle from any bucket. -/
theorem bucketPush_preserve (cells : List ((ℤ × ℤ × ℤ) × List ℕ))
    (c2 k : ℤ × ℤ × ℤ) (n : ℕ)
    (h : ∃ l, assocFind k cells = some l ∧ n ∈ l) :
    ∃ l, assocFind k (bucketPush cells c2 n) = some l ∧ n ∈ l := by
  induction cells with
  | nil => simp [assocFind] at h
  | cons e rest ih =>
    obtain ⟨l, hf, hn⟩ := h
    rw [assocFind] at hf
    by_cases hek : e.1 = k
    · rw [if_pos hek] at hf
      cases hf
      by_cases hec : e.1 = c2
      · refine ⟨e.2 ++ [n], ?_, by simp [hn]⟩
        cases e
        simp_all [bucketPush, assocFind]
      · refine ⟨e.2, ?_, hn⟩
        cases e
        simp_all [bucketPush, assocFind]
    · rw [if_neg hek] at hf
      by_cases hec : e.1 = c2
      · refine ⟨l, ?_, hn⟩
        cases e
        simp_all [bucketPush, assocFind]
      · obtain ⟨l2, hf2, hn2⟩ := ih ⟨l, hf, hn⟩
        refine ⟨l2, ?_, hn2⟩
        cases e
        simp_all [bucketPush, assocFind]

/-- Folding `bucketPush` over a cell list preserves handle membership. -/
theorem foldl_bucketPush_preserve (L : List (ℤ × ℤ × ℤ))
    (cells : List ((ℤ × ℤ × ℤ) × List ℕ)) (k : ℤ × ℤ × ℤ) (n : ℕ)
    (h : ∃ l, assocFind k cells = some l ∧ n ∈ l) :
    ∃ l, assocFind k (L.foldl (fun cs cc => bucketPush cs cc n) cells) = some l ∧
      n ∈ l := by
  induction L generalizing cells with
  | nil => simpa using h
  | cons c rest ih => exact ih _ (bucketPush_preserve cells c k n h)

/-- After folding `bucketPush` over a cell list, the handle is registered in
every cell of that list. -/
theorem foldl_bucketPush_mem (L : List (ℤ × ℤ × ℤ))
    (cells : List ((ℤ × ℤ × ℤ) × List ℕ)) (c : ℤ × ℤ × ℤ) (n : ℕ)
    (hc : c ∈ L) :
    ∃ l, assocFind c (L.foldl (fun cs cc => bucketPush cs cc n) cells) = some l ∧
      n ∈ l := by
  induction L generalizing cells with
  | nil => cases hc
  | cons c0 rest ih =>
    rcases List.mem_cons.mp hc with h0 | h0
    · subst h0
      exact foldl_bucketPush_preserve rest _ c n (bucketPush_self cells c n)
    · exact ih _ h0

/-- The lower corner cell belongs to `cellRange` whenever the range is
componentwise nonempty. -/
theorem mem_cellRange_self (mn mx : ℤ × ℤ × ℤ) (h1 : mn.1 ≤ mx.1)
    (h2 : mn.2.1 ≤ mx.2.1) (h3 : mn.2.2 ≤ mx.2.2) : mn ∈ cellRange mn mx := by
  have mem_self : ∀ a b : ℤ, a ≤ b → a ∈ rangeInt a b := by
    intro a b hab
    unfold rangeInt
    rw [List.mem_map]
    refine ⟨0, ?_, by simp⟩
    rw [List.mem_range]
    omega
  refine List.mem_flatMap.mpr ⟨mn.1, mem_self _ _ h1, ?_⟩
  refine List.mem_flatMap.mpr ⟨mn.2.1, mem_self _ _ h2, ?_⟩
  exact List.mem_map.mpr ⟨mn.2.2, mem_self _ _ h3, rfl⟩

/-- Characterization of broad-phase membership: a handle is reported iff
some overlapped cell's bucket holds it. -/
theorem mem_potentialCollisions_iff (g : SpatialGrid) (position size : ℚ × ℚ × ℚ)
    (n : ℕ) :
    n ∈ g.potentialCollisions position size ↔
      ∃ c ∈ cellRange (g.gridCoords position)
        (g.gridCoords (position.1 + size.1, position.2.1 + size.2.1,
          position.2.2 + size.2.2)),
        ∃ l, assocFind c g.cells = some l ∧ n ∈ l := by
  unfold SpatialGrid.potentialCollisions
  rw [List.mem_dedup, List.mem_flatMap]
  constructor
  · rintro ⟨c, hc, hn⟩
    refine ⟨c, hc, ?_⟩
    cases hfind : assocFind c g.cells with
    | none => rw [hfind] at hn; simp at hn
    | some l => exact ⟨l, rfl, by rw [hfind] at hn; simpa using hn⟩
  · rintro ⟨c, hc, l, hfind, hn⟩
    exact ⟨c, hc, by simp [hfind, hn]⟩

/-- Entries surviving `remove_node` hold neither the removed handle nor an
empty bucket. -/
theorem removeNode_entries (g : SpatialGrid) (n : ℕ) :
    ∀ e ∈ (g.removeNode n).cells, n ∉ e.2 ∧ e.2 ≠ [] := by
  intro e he
  unfold SpatialGrid.removeNode at he
  simp only [List.mem_filter, List.mem_map] at he
  obtain ⟨⟨e0, he0, heq⟩, hne⟩ := he
  subst heq
  constructor
  · intro hmem
    simp at hmem
  · simpa using hne

/-- CLAIM C5 — after `add_node(n, pos, size)` with a positive cell size and
non-negative size, `potential_collisions(pos, size)` reports `n`; after a
subsequent `remove_node(n)` it no longer does, no cell's bucket holds `n`,
and no cell maps to an empty bucket. -/
theorem c5_spatial_grid (g : SpatialGrid) (n : ℕ) (position size : ℚ × ℚ × ℚ)
    (hcs : 0 < g.cell_size) (h1 : 0 ≤ size.1) (h2 : 0 ≤ size.2.1)
    (h3 : 0 ≤ size.2.2) :
    n ∈ (g.addNode n position size).potentialCollisions position size ∧
    n ∉ ((g.addNode n position size).removeNode n).potentialCollisions
      position size ∧
    ∀ e ∈ ((g.addNode n position size).removeNode n).cells,
      n ∉ e.2 ∧ e.2 ≠ [] := by
  have hsize : ∀ g2 : SpatialGrid, g2.cell_size = g.cell_size →
      ∀ p : ℚ × ℚ × ℚ, g2.gridCoords p = g.gridCoords p := by
    intro g2 hg2 p
    simp [SpatialGrid.gridCoords, hg2]
  have hmono : ∀ a s : ℚ, 0 ≤ s →
      ⌊a / g.cell_size⌋ ≤ ⌊(a + s) / g.cell_size⌋ := by
    intro a s hs
    exact Int.floor_le_floor ((div_le_div_iff_of_pos_right hcs).mpr (by linarith))
  have hcorner :
      g.gridCoords position ∈ cellRange (g.gridCoords position)
        (g.gridCoords (position.1 + size.1, position.2.1 + size.2.1,
          position.2.2 + size.2.2)) := by
    exact mem_cellRange_self _ _ (hmono _ _ h1) (hmono _ _ h2) (hmono _ _ h3)
  have hadd_cs : (g.addNode n position size).cell_size = g.cell_size := rfl
  have hrem_cs : ((g.addNode n position size).removeNode n).cell_size =
      g.cell_size := rfl
  refine ⟨?_, ?_, removeNode_entries _ n⟩
  · rw [mem_potentialCollisions_iff]
    refine ⟨g.gridCoords position, ?_, ?_⟩
    · simpa [hsize _ hadd_cs] using hcorner
    · have : g.gridCoords position ∈ cellRange (g.gridCoords position)
          ((g.addNode n position size).gridCoords
            (position.1 + size.1, position.2.1 + size.2.1,
              position.2.2 + size.2.2)) := by
        simpa [hsize _ hadd_cs] using hcorner
      exact foldl_bucketPush_mem _ g.cells _ n hcorner
  · rw [mem_potentialCollisions_iff]
    rintro ⟨c, _, l, hfind, hn⟩
    exact (removeNode_entries _ n _ (assocFind_mem hfind)).1 hn

/-- Witness for C5 at a concrete grid: cell size 1, handle 5, unit box at
the origin. -/
theorem c5_spatial_grid_witness :
    (0 : ℚ) < 1 ∧
    5 ∈ ((SpatialGrid.new 1).addNode 5 (0, 0, 0) (1, 1, 1)).potentialCollisions
      (0, 0, 0) (1, 1, 1) ∧
    5 ∉ (((SpatialGrid.new 1).addNode 5 (0, 0, 0) (1, 1, 1)).removeNode
      5).potentialCollisions (0, 0, 0) (1, 1, 1) := by
  have h := c5_spatial_grid (SpatialGrid.new 1) 5 (0, 0, 0) (1, 1, 1)
    (by norm_num [SpatialGrid.new]) (by norm_num) (by norm_num) (by norm_num)
  exact ⟨by norm_num, h.1, h.2.1⟩

/-- Membership in `insertByKey` is membership in the inserted element or the
original list. -/
theorem mem_insertByKey {a : Type} (f : a → ℕ) (x y : a) (l : List a) :
    y ∈ insertByKey f x l ↔ y = x ∨ y ∈ l := by
  induction l with
  | nil => simp [insertByKey]
  | cons b t ih =>
    by_cases h : f x ≤ f b
    · simp [insertByKey, h]
    · simp only [insertByKey, if_neg h, List.mem_cons, ih]
      tauto

/-- Membership is invariant under `sortByKey`. -/
theorem mem_sortByKey {a : Type} (f : a → ℕ) (y : a) (l : List a) :
    y ∈ sortByKey f l ↔ y ∈ l := by
  induction l with
  | nil => simp [sortByKey]
  | cons b t ih => simp [sortByKey, mem_insertByKey, ih]

/-- `sortByKey` returns the empty list only on the empty list. -/
theorem sortByKey_eq_nil_iff {a : Type} (f : a → ℕ) (l : List a) :
    sortByKey f l = [] ↔ l = [] := by
  induction l with
  | nil => simp [sortByKey]
  | cons b t ih =>
    simp only [sortByKey]
    constructor
    · intro h
      cases hs : sortByKey f t with
      | nil => rw [hs] at h; simp [insertByKey] at h
      | cons c cs =>
        rw [hs] at h
        by_cases hle : f b ≤ f c <;> simp [insertByKey, hle] at h
    · intro h
      cases h

/-- The head of `insertByKey` carries the minimal key, provided the head of
the target list already did. -/
theorem insertByKey_head_min {a : Type} (f : a → ℕ) (x : a) (s : List a)
    (hs : ∀ hd tl, s = hd :: tl → ∀ y ∈ s, f hd ≤ f y) :
    ∀ hd tl, insertByKey f x s = hd :: tl → ∀ y ∈ insertByKey f x s, f hd ≤ f y := by
  cases s with
  | nil =>
    intro hd tl heq y hy
    simp only [insertByKey] at heq hy
    cases heq
    simp_all
  | cons b t =>
    intro hd tl heq y hy
    by_cases h : f x ≤ f b
    · rw [insertByKey, if_pos h] at heq hy
      cases heq
      rcases List.mem_cons.mp hy with h1 | h1
      · subst h1; exact le_refl _
      · exact le_trans h (hs b t rfl y h1)
    · rw [insertByKey, if_neg h] at heq hy
      cases heq
      rcases List.mem_cons.mp hy with h1 | h1
      · subst h1; exact le_refl _
      · rcases (mem_insertByKey f x y t).mp h1 with h2 | h2
        · subst h2; exact le_of_not_le h
        · exact hs b t rfl y (List.mem_cons_of_mem _ h2)

/-- The head of `sortByKey` carries the minimal key. -/
theorem sortByKey_head_min {a : Type} (f : a → ℕ) (l : List a) :
    ∀ hd tl, sortByKey f l = hd :: tl → ∀ y ∈ sortByKey f l, f hd ≤ f y := by
  induction l with
  | nil => intro hd tl heq; cases heq
  | cons b t ih =>
    simp only [sortByKey]
    exact insertByKey_head_min f b (sortByKey f t) ih

/-- Membership characterization of `entropyCandidates`. -/
theorem mem_entropyCandidates_iff (states : List (List NodeState))
    (collapsed : List ℕ) (n k : ℕ) :
    (n, k) ∈ entropyCandidates states collapsed ↔
      ∃ l, states[n]? = some l ∧ n ∉ collapsed ∧ l ≠ [] ∧ k = l.length := by
  unfold entropyCandidates
  rw [List.mem_filterMap]
  constructor
  · rintro ⟨p, hp, hif⟩
    by_cases hc : p.1 ∉ collapsed ∧ ¬p.2.isEmpty
    · rw [if_pos (by simpa [Bool.and_eq_true] using hc)] at hif
      cases hif
      refine ⟨p.2, ?_, hc.1, by simpa using hc.2, rfl⟩
      have := List.mk_mem_enum_iff_getElem?.mp (by simpa using hp)
      simpa using this
    · rw [if_neg (by simpa [Bool.and_eq_true, Decidable.not_and_iff_or_not] using hc)] at hif
      cases hif
  · rintro ⟨l, hget, hnc, hne, hk⟩
    refine ⟨(n, l), List.mk_mem_enum_iff_getElem?.mpr hget, ?_⟩
    rw [if_pos (by simpa [Bool.and_eq_true, List.isEmpty_iff] using ⟨hnc, hne⟩)]
    simp [hk]

/-- `entropyCandidates` is empty exactly when every uncollapsed node's
candidate list is empty. -/
theorem entropyCandidates_eq_nil_iff (states : List (List NodeState))
    (collapsed : List ℕ) :
    entropyCandidates states collapsed = [] ↔
      ∀ m lm, m ∉ collapsed → states[m]? = some lm → lm = [] := by
  constructor
  · intro h m lm hm hget
    by_contra hne
    have : (m, lm.length) ∈ entropyCandidates states collapsed :=
      (mem_entropyCandidates_iff states collapsed m lm.length).mpr
        ⟨lm, hget, hm, hne, rfl⟩
    rw [h] at this
    cases this
  · intro h
    cases hc : entropyCandidates states collapsed with
    | nil => rfl
    | cons c cs =>
      have : c ∈ entropyCandidates states collapsed := by rw [hc]; exact List.mem_cons_self _ _
      obtain ⟨l, hget, hnc, hne, _⟩ :=
        (mem_entropyCandidates_iff states collapsed c.1 c.2).mp (by simpa using this)
      exact absurd (h c.1 l hnc hget) hne

/-- Indexing any non-empty list at `r mod length` yields a value. -/
theorem getElem_mod_ne_none {α : Type} (l : List α) (r : ℕ) (h : l ≠ []) :
    l[r % l.length]? ≠ none := by
  have hlen : 0 < l.length := List.length_pos.mpr h
  rw [List.getElem?_eq_getElem (Nat.mod_lt r hlen)]
  simp

/-- CLAIM C7 — any node `select_node_to_collapse` can return (for any
random draw) is uncollapsed with a non-empty candidate list of globally
minimal length among uncollapsed nodes with non-empty lists, and the
function returns `None` exactly when no uncollapsed node has candidates. -/
theorem c7_select_node :
    (∀ (states : List (List NodeState)) (collapsed : List ℕ) (r n : ℕ),
      selectNodeToCollapse states collapsed r = some n →
      n ∉ collapsed ∧ ∃ l, states[n]? = some l ∧ l ≠ [] ∧
        ∀ m lm, m ∉ collapsed → states[m]? = some lm → lm ≠ [] →
          l.length ≤ lm.length) ∧
    (∀ (states : List (List NodeState)) (collapsed : List ℕ) (r : ℕ),
      selectNodeToCollapse states collapsed r = none ↔
        ∀ m lm, m ∉ collapsed → states[m]? = some lm → lm = []) := by
  have hnone : ∀ (states : List (List NodeState)) (collapsed : List ℕ) (r : ℕ),
      selectNodeToCollapse states collapsed r = none ↔
        entropyCandidates states collapsed = [] := by
    intro states collapsed r
    cases hc : entropyCandidates states collapsed with
    | nil => simp [selectNodeToCollapse, hc]
    | cons c cs =>
      simp only [selectNodeToCollapse, hc, List.isEmpty_cons, Bool.false_eq_true,
        if_false, List.headD_cons, reduceCtorEq, iff_false]
      cases hs : sortByKey (fun x : ℕ × ℕ => x.2) (c :: cs) with
      | nil => exact absurd (by simpa using hs) (by simp [sortByKey_eq_nil_iff])
      | cons hd tl =>
        apply getElem_mod_ne_none
        apply List.ne_nil_of_mem
        apply List.mem_map_of_mem
        exact List.mem_filter.mpr ⟨List.mem_cons_self _ _, by simp⟩
  refine ⟨?_, fun states collapsed r => (hnone states collapsed r).trans
    (entropyCandidates_eq_nil_iff states collapsed)⟩
  intro states collapsed r n hsel
  cases hc : entropyCandidates states collapsed with
  | nil =>
    rw [(hnone states collapsed r).mpr hc] at hsel
    cases hsel
  | cons c cs =>
    simp only [selectNodeToCollapse, hc, List.isEmpty_cons, Bool.false_eq_true,
      if_false, List.headD_cons] at hsel
    cases hs : sortByKey (fun x : ℕ × ℕ => x.2) (c :: cs) with
    | nil => exact absurd (by simpa using hs) (by simp [sortByKey_eq_nil_iff])
    | cons hd tl =>
      rw [hs] at hsel
      simp only [List.headD_cons] at hsel
      have hn : n ∈ ((hd :: tl).filter fun x => x.2 = hd.2).map fun x => x.1 :=
        List.getElem?_mem hsel
      obtain ⟨cand, hcand, hceq⟩ := List.mem_map.mp hn
      have hcand2 := List.mem_filter.mp hcand
      have hcand_mem : cand ∈ entropyCandidates states collapsed := by
        rw [hc]
        exact (mem_sortByKey (fun x : ℕ × ℕ => x.2) cand (c :: cs)).mp
          (by rw [hs]; exact hcand2.1)
      have hckey : cand.2 = hd.2 := by simpa using hcand2.2
      obtain ⟨l, hget, hnc, hne, hk⟩ :=
        (mem_entropyCandidates_iff states collapsed cand.1 cand.2).mp
          (by simpa using hcand_mem)
      subst hceq
      refine ⟨hnc, l, hget, hne, ?_⟩
      intro m lm hm hmget hmne
      have hmmem : (m, lm.length) ∈ sortByKey (fun x : ℕ × ℕ => x.2) (c :: cs) := by
        rw [← hc]
        exact (mem_sortByKey _ _ _).mpr
          ((mem_entropyCandidates_iff states collapsed m lm.length).mpr
            ⟨lm, hmget, hm, hmne, rfl⟩)
      have hmin := sortByKey_head_min (fun x : ℕ × ℕ => x.2) (c :: cs) hd tl hs
        (m, lm.length) hmmem
      calc l.length = cand.2 := by rw [hk]
        _ = hd.2 := hckey
        _ ≤ lm.length := hmin

/-- Witness for C7: two nodes, the first with one candidate and the second
with none; the selection returns node 0, which is indeed uncollapsed. -/
theorem c7_select_node_witness :
    selectNodeToCollapse [[stO0], []] [] 0 = some 0 ∧ (0 : ℕ) ∉ ([] : List ℕ) := by
  have hsel : selectNodeToCollapse [[stO0], []] [] 0 = some 0 := by
    with_unfolding_all rfl
  exact ⟨hsel, (c7_select_node.1 [[stO0], []] [] 0 0 hsel).1⟩

/-- Success test for `Result`-valued operations. -/
def exceptIsOk {α : Type} : Except WFCError α → Bool
  | Except.ok _ => true
  | Except.error _ => false

/-- Modelled from the words of claim C1: candidate set `palette ×
Orientation` at the node's position, filtered by all invariants, by absence
of collision, and — only when the collapsed set is non-empty — by
`can_connect_to_existing`; invariant and collision filtering are claimed to
apply in every case. -/
def claimValidStates (invs : List Invariant) (s : SolverState) (node : ℕ)
    (pos : ℕ × ℕ × ℕ) : List NodeState :=
  (allCandidateStates s pos).filter fun st =>
    (invs.all fun inv => inv node st s) &&
    !(wouldCollide s st) &&
    (s.collapsed.isEmpty || canConnectToExisting s st)

/-- Amendment of claim C1: when the collapsed set is empty the code
recomputes the candidates with only the invariant filter, so collision
filtering (like connectivity) is skipped for the first collapse. -/
def amendedValidStates (invs : List Invariant) (s : SolverState) (node : ℕ)
    (pos : ℕ × ℕ × ℕ) : List NodeState :=
  if s.collapsed.isEmpty then
    (allCandidateStates s pos).filter fun st =>
      invs.all fun inv => inv node st s
  else
    (allCandidateStates s pos).filter fun st =>
      (invs.all fun inv => inv node st s) &&
      !(wouldCollide s st) &&
      canConnectToExisting s st

/-- Solver state refuting claim C1: the collapsed set is empty while the
spatial grid already registers node 0, whose committed `2 x 1 x 1` block at
`(0,0,0)` overlaps every candidate placement of the palette block at node
1's cell `(1,0,0)`.  Reachable through the public API: `collapse_node` at
`(0,0,0)` followed by clearing the public `collapsed` field. -/
def c1State : SolverState :=
  { graph :=
      { nodes := [NodeState.withPosition blk2 Orientation.O0 (0, 0, 0),
                  NodeState.withPosition blk1 Orientation.O0 (1, 0, 0)]
        edges := [] }
    collapsed := []
    blockSet := [blk2]
    spatialGrid := (SpatialGrid.new 1).addNode 0 (0, 0, 0) blk2.sizeQ
    connections := [] }

/-- Counterexample to claim C1: at `c1State` the claim's filtered candidate
set is empty — every candidate collides — so the claim predicts
`NoValidStatesAfterInvariants`; but the code's candidate set (recomputed
with only the invariant filter because the collapsed set is empty) is
non-empty and `collapse_node` succeeds. -/
theorem c1_counterexample :
    (claimValidStates [] c1State 1 (1, 0, 0)).isEmpty = true ∧
    (collapseValid [] c1State 1 (1, 0, 0)).isEmpty = false ∧
    exceptIsOk (collapseNode [] pickFirst c1State 1) = true := by
  refine ⟨?_, ?_, ?_⟩ <;> with_unfolding_all rfl

/-- CLAIM C1 (amended) — the candidate set `collapse_node` uses equals the
palette-times-orientations list filtered by invariants, collision, and
connectivity when the collapsed set is non-empty, but by the invariants
alone when the collapsed set is empty (collision and connectivity both
skipped); and the call returns `NoValidStatesAfterInvariants(node)` iff
that candidate set is empty. -/
theorem c1_collapse_amended (invs : List Invariant) (sel : Sel)
    (s : SolverState) (node : ℕ) (ns : NodeState)
    (hw : s.graph.nodeWeight node = some ns) (hnc : node ∉ s.collapsed) :
    collapseValid invs s node ns.position =
      amendedValidStates invs s node ns.position ∧
    ((collapseNode invs sel s node =
        Except.error (WFCError.NoValidStatesAfterInvariants node)) ↔
      amendedValidStates invs s node ns.position = []) := by
  have heq : collapseValid invs s node ns.position =
      amendedValidStates invs s node ns.position := by
    cases hE : s.collapsed.isEmpty with
    | true => simp [collapseValid, amendedValidStates, hE]
    | false => simp [collapseValid, amendedValidStates, hE, Bool.false_or]
  refine ⟨heq, ?_⟩
  rw [← heq]
  unfold collapseNode
  rw [hw]
  simp only [if_neg hnc]
  cases hve : (collapseValid invs s node ns.position).isEmpty with
  | true =>
    simp only [hve, if_true]
    rw [List.isEmpty_iff] at hve
    simp [hve]
  | false =>
    simp only [hve, Bool.false_eq_true, if_false]
    rw [List.isEmpty_eq_false_iff_exists_mem] at hve
    constructor
    · intro h
      cases hsel : sel node (collapseValid invs s node ns.position) with
      | none => rw [hsel] at h; cases h
      | some st => rw [hsel] at h; cases h
    · intro h
      obtain ⟨x, hx⟩ := hve
      rw [h] at hx
      cases hx

/-- Witness for the amended C1 at `c1State`, node 1: the hypotheses hold
and the code's candidate set matches the amended description. -/
theorem c1_collapse_amended_witness :
    c1State.graph.nodeWeight 1 =
      some (NodeState.withPosition blk1 Orientation.O0 (1, 0, 0)) ∧
    (1 : ℕ) ∉ c1State.collapsed ∧
    collapseValid [] c1State 1
        (NodeState.withPosition blk1 Orientation.O0 (1, 0, 0)).position =
      amendedValidStates [] c1State 1
        (NodeState.withPosition blk1 Orientation.O0 (1, 0, 0)).position := by
  have hw : c1State.graph.nodeWeight 1 =
      some (NodeState.withPosition blk1 Orientation.O0 (1, 0, 0)) := by
    with_unfolding_all rfl
  have hnc : (1 : ℕ) ∉ c1State.collapsed := by simp [c1State]
  exact ⟨hw, hnc, (c1_collapse_amended [] pickFirst c1State 1 _ hw hnc).1⟩

/-- Mirroring check on the connection registry: every recorded binding
`a.sid -> (b, oid)` is answered by `b.oid -> (a, sid)`. -/
def mirroredBool (conns : List (ℕ × List (String × (ℕ × String)))) : Bool :=
  conns.all fun e =>
    e.2.all fun b =>
      match assocFind b.2.1 conns with
      | none => false
      | some m =>
        match assocFind b.2.2 m with
        | none => false
        | some back => back = (e.1, b.1)

/-- Three collapses on a 3 x 1 x 1 grid of one-face unit blocks, collapsing
nodes 0, 1, 2 in turn (the solver state `WFCSolver::new` would build). -/
def c8Run : Except WFCError SolverState :=
  (collapseNode [] pickFirst
    { graph := gridGraph blk1 (3, 1, 1)
      collapsed := []
      blockSet := [blk1]
      spatialGrid := SpatialGrid.new 1
      connections := [] } 0).bind fun p1 =>
  (collapseNode [] pickFirst p1.2 1).bind fun p2 =>
  (collapseNode [] pickFirst p2.2 2).map fun p3 => p3.2

/-- Counterexample to claim C8: after collapsing nodes 0, 1, 2 (all three
succeed), node 2's `establish_connections` rebinds node 0's already-bound
point `conn_0`, so node 1's registry still records `(0, conn_0)` while node
0's registry now records `(2, conn_0)` — the binding is no longer
mirrored. -/
theorem c8_counterexample :
    exceptIsOk c8Run = true ∧
    (match c8Run with
     | Except.ok s => mirroredBool s.connections
     | Except.error _ => true) = false := by
  refine ⟨?_, ?_⟩ <;> with_unfolding_all rfl

/-- The inserted key of `registryInsert` maps `sid` to the new binding. -/
theorem assocFind_registryInsert_self
    (conns : List (ℕ × List (String × (ℕ × String)))) (node : ℕ)
    (sid : String) (v : ℕ × String) :
    ∃ m, assocFind node (registryInsert conns node sid v) = some m ∧
      assocFind sid m = some v := by
  induction conns with
  | nil =>
    exact ⟨[(sid, v)], by simp [registryInsert, assocFind], by simp [assocFind]⟩
  | cons e rest ih =>
    by_cases he : e.1 = node
    · refine ⟨assocInsert sid v e.2, ?_, assocFind_assocInsert_self sid v e.2⟩
      cases e
      simp_all [registryInsert, assocFind]
    · obtain ⟨m, hm, hv⟩ := ih
      refine ⟨m, ?_, hv⟩
      cases e
      simp_all [registryInsert, assocFind]

/-- Other keys are untouched by `registryInsert`. -/
theorem assocFind_registryInsert_other
    (conns : List (ℕ × List (String × (ℕ × String)))) (node : ℕ)
    (sid : String) (v : ℕ × String) (k : ℕ) (hk : k ≠ node) :
    assocFind k (registryInsert conns node sid v) = assocFind k conns := by
  have hnk : ¬node = k := fun h => hk h.symm
  induction conns with
  | nil => simp [registryInsert, assocFind, hnk]
  | cons e rest ih =>
    cases e with
    | mk n2 m2 =>
      by_cases he : n2 = node
      · subst he
        simp [registryInsert, assocFind, hnk]
      · by_cases hek : n2 = k
        · simp [registryInsert, assocFind, he, hek, hk]
        · simp [registryInsert, assocFind, he, hek, ih]

/-- CLAIM C8 (amended) — immediately after `establish_connections` commits
its first possibility `(other, sid, oid)`, the binding is mirrored in the
registry: `node.sid -> (other, oid)` and `other.oid -> (node, sid)`.  (The
mirror is not an invariant of all reachable states: a later collapse may
rebind an already-bound point, and backtrack removes only the popped
node's registry entries — see the counterexample.) -/
theorem c8_establish_mirrors (s : SolverState) (node : ℕ) (state : NodeState)
    (other : ℕ) (sid oid : String) (rest : List (ℕ × String × String))
    (hp : possibleConnections s node state = (other, sid, oid) :: rest) :
    ∃ m1 m2,
      assocFind node (establishConnections s node state).connections = some m1 ∧
      assocFind sid m1 = some (other, oid) ∧
      assocFind other (establishConnections s node state).connections = some m2 ∧
      assocFind oid m2 = some (node, sid) := by
  have hmem : (other, sid, oid) ∈ possibleConnections s node state := by
    rw [hp]
    exact List.mem_cons_self _ _
  have hno : other ≠ node := by
    obtain ⟨o, _, hf⟩ := List.mem_filterMap.mp hmem
    by_cases ho : o = node
    · rw [if_pos ho] at hf
      cases hf
    · rw [if_neg ho] at hf
      cases hw : s.graph.nodeWeight o with
      | none => simp [hw] at hf
      | some ost =>
        cases hcc : state.canConnectTo ost with
        | none => simp [hw, hcc] at hf
        | some pr =>
          cases pr with
          | mk a b =>
            simp only [hw, hcc, Option.some.injEq, Prod.mk.injEq] at hf
            obtain ⟨h1, -, -⟩ := hf
            subst h1
            exact ho
  have hne : s.collapsed.isEmpty = false := by
    cases hE : s.collapsed with
    | nil =>
      rw [possibleConnections, hE] at hp
      cases hp
    | cons c cs => simp [hE]
  unfold establishConnections
  rw [hne, hp]
  simp only [Bool.false_eq_true, if_false]
  obtain ⟨m2, hm2, hv2⟩ := assocFind_registryInsert_self
    (registryInsert s.connections node sid (other, oid)) other oid (node, sid)
  obtain ⟨m1, hm1, hv1⟩ := assocFind_registryInsert_self s.connections node sid
    (other, oid)
  refine ⟨m1, m2, ?_, hv1, hm2, hv2⟩
  rw [assocFind_registryInsert_other _ other oid (node, sid) node
    (fun h => hno h.symm)]
  exact hm1

/-- Fixture for the C8 witness: node 0 collapsed with a one-face state,
node 1 about to connect to it. -/
def c8WState : SolverState :=
  { graph :=
      { nodes := [NodeState.withPosition blk1 Orientation.O0 (0, 0, 0),
                  NodeState.withPosition blk1 Orientation.O0 (1, 0, 0)]
        edges := [] }
    collapsed := [0]
    blockSet := [blk1]
    spatialGrid := SpatialGrid.new 1
    connections := [] }

/-- Witness for the amended C8: connecting node 1 to the collapsed node 0
produces a mirrored pair of registry entries. -/
theorem c8_establish_mirrors_witness :
    possibleConnections c8WState 1
        (NodeState.withPosition blk1 Orientation.O0 (1, 0, 0)) =
      [(0, "conn_0", "conn_0")] ∧
    ∃ m1 m2,
      assocFind 1 (establishConnections c8WState 1
        (NodeState.withPosition blk1 Orientation.O0 (1, 0, 0))).connections =
          some m1 ∧
      assocFind "conn_0" m1 = some (0, "conn_0") ∧
      assocFind 0 (establishConnections c8WState 1
        (NodeState.withPosition blk1 Orientation.O0 (1, 0, 0))).connections =
          some m2 ∧
      assocFind "conn_0" m2 = some (1, "conn_0") := by
  have hp : possibleConnections c8WState 1
      (NodeState.withPosition blk1 Orientation.O0 (1, 0, 0)) =
        [(0, "conn_0", "conn_0")] := by
    with_unfolding_all rfl
  exact ⟨hp, c8_establish_mirrors c8WState 1 _ 0 "conn_0" "conn_0" [] hp⟩

/-- `solve()` on the 1 x 1 x 1 grid graph with the one-block palette, no
invariants, and the first-pick heuristic (ample fuel). -/
def c2Run : Except WFCError SolverState :=
  solve [] pickFirst blk1 (gridGraph blk1 (1, 1, 1)) [blk1] 10

/-- Collapsed set of `c2Run` (empty on error). -/
def c2Collapsed : List ℕ :=
  match c2Run with
  | Except.ok s => s.collapsed
  | Except.error _ => []

/-- CLAIM C2 is violated by the code: on the 1 x 1 x 1 grid (grid node 0 at
cell `(0,0,0)`), `solve()` appends a fresh seed node (index 1) with no
edges to the grid, the DFS visits only that seed, and the call returns `Ok`
with only the seed collapsed — grid node 0 is not a member of the collapsed
set. -/
theorem c2_seed_bug :
    (gridGraph blk1 (1, 1, 1)).nodes.length = 1 ∧
    exceptIsOk c2Run = true ∧
    c2Collapsed = [1] ∧
    (0 : ℕ) ∉ ([1] : List ℕ) := by
  refine ⟨?_, ?_, ?_, by decide⟩ <;> with_unfolding_all rfl

/-- Filtering away a key makes `assocFind` miss it. -/
theorem assocFind_filter_ne {β : Type} (p : ℕ) (l : List (ℕ × β)) :
    assocFind p (l.filter fun e => decide (e.1 ≠ p)) = none := by
  induction l with
  | nil => rfl
  | cons e rest ih =>
    by_cases he : e.1 = p
    · simp only [List.filter_cons, he]
      simpa using ih
    · simp only [List.filter_cons]
      have hd : decide (e.1 ≠ p) = true := by simp [he]
      rw [hd]
      simp only [if_true]
      rw [assocFind, if_neg he]
      exact ih

/-- CLAIM C3 — on a collapse failure inside `solve()`, the solver performs
exactly one backtrack and one retry: `backtrack` pops the most recent
history entry `(p, ps)`, after which `p` is registered in no spatial-grid
cell, has no connection-registry entry, has its node state restored to
`ps`, and sits on top of the DFS stack; `backtrack` on an empty history
stack yields `NoSolution`; and the failing iteration of the solve loop
equals backtrack followed by a retry of the same node's collapse, with any
non-`Ok(true)` backtrack outcome turned into `NoSolution`. -/
theorem c3_backtrack_behavior :
    (∀ (s : SolverState) (dfs : DfsState) (hist : List (ℕ × NodeState))
       (p : ℕ) (ps : NodeState),
      hist.getLast? = some (p, ps) → (s.graph.nodeWeight p).isSome = true →
      ∃ s2 dfs2, backtrack s dfs hist =
          Except.ok (true, s2, dfs2, hist.dropLast) ∧
        (∀ e ∈ s2.spatialGrid.cells, p ∉ e.2) ∧
        assocFind p s2.connections = none ∧
        s2.graph.nodeWeight p = some ps ∧
        dfs2.stack = p :: dfs.stack ∧
        s2.collapsed = s.collapsed) ∧
    (∀ (s : SolverState) (dfs : DfsState),
      backtrack s dfs [] = Except.error WFCError.NoSolution) ∧
    (∀ (invs : List Invariant) (sel : Sel) (fuel : ℕ) (s : SolverState)
       (dfs dfs1 : DfsState) (hist : List (ℕ × NodeState)) (node : ℕ)
       (ns : NodeState) (e : WFCError),
      dfsNext s.graph dfs = some (node, dfs1) →
      s.graph.nodeWeight node = some ns →
      collapseNode invs sel s node = Except.error e →
      solveLoop invs sel (fuel + 1) s dfs hist =
        match backtrack s dfs1 (hist ++ [(node, ns)]) with
        | Except.ok (true, s2, dfs2, hist2) =>
          (match collapseNode invs sel s2 node with
           | Except.ok r2 => solveLoop invs sel fuel r2.2 dfs2 hist2
           | Except.error e2 => Except.error e2)
        | _ => Except.error WFCError.NoSolution) := by
  refine ⟨?_, ?_, ?_⟩
  · intro s dfs hist p ps hlast hsome
    obtain ⟨w, hw⟩ := Option.isSome_iff_exists.mp hsome
    have hlen : p < s.graph.nodes.length :=
      (List.getElem?_eq_some_iff.mp hw).1
    refine ⟨{ s with
        graph := s.graph.setNode p ps
        spatialGrid := s.spatialGrid.removeNode p
        connections := s.connections.filter fun e => decide (e.1 ≠ p) },
      { dfs with stack := p :: dfs.stack }, ?_, ?_, ?_, ?_, rfl, rfl⟩
    · unfold backtrack
      simp only [hlast, hw]
    · intro e he
      exact (removeNode_entries s.spatialGrid p e he).1
    · exact assocFind_filter_ne p s.connections
    · show (s.graph.setNode p ps).nodes[p]? = some ps
      unfold WFCGraph.setNode
      exact List.getElem?_set_self hlen
  · intro s dfs
    rfl
  · intro invs sel fuel s dfs dfs1 hist node ns e hdfs hw hcol
    rw [solveLoop]
    simp only [hdfs, hw, hcol]

/-- Fixture for the C3 witness: one grid node, empty palette (so every
collapse fails with `NoValidStatesAfterInvariants`). -/
def c3State : SolverState :=
  { graph :=
      { nodes := [NodeState.withPosition blk1 Orientation.O0 (0, 0, 0)]
        edges := [] }
    collapsed := []
    blockSet := []
    spatialGrid := SpatialGrid.new 1
    connections := [] }

/-- DFS fixture for the C3 witness, about to visit node 0. -/
def c3Dfs : DfsState :=
  { stack := [0], discovered := [] }

/-- The pre-visit state of node 0 in `c3State`. -/
def c3Ns : NodeState := NodeState.withPosition blk1 Orientation.O0 (0, 0, 0)

/-- Witness for C3: at `c3State` the collapse of node 0 fails, and the
solve-loop iteration equals one backtrack followed by one retry; since the
retry fails again deterministically, the loop yields its error. -/
theorem c3_backtrack_behavior_witness :
    dfsNext c3State.graph c3Dfs = some (0, { stack := [], discovered := [0] }) ∧
    c3State.graph.nodeWeight 0 = some c3Ns ∧
    collapseNode [] pickFirst c3State 0 =
      Except.error (WFCError.NoValidStatesAfterInvariants 0) ∧
    backtrack c3State { stack := [], discovered := [0] } [] =
      Except.error WFCError.NoSolution ∧
    solveLoop [] pickFirst 1 c3State c3Dfs [] =
      match backtrack c3State { stack := [], discovered := [0] } [(0, c3Ns)] with
      | Except.ok (true, s2, dfs2, hist2) =>
        (match collapseNode [] pickFirst s2 0 with
         | Except.ok r2 => solveLoop [] pickFirst 0 r2.2 dfs2 hist2
         | Except.error e2 => Except.error e2)
      | _ => Except.error WFCError.NoSolution := by
  have h1 : dfsNext c3State.graph c3Dfs =
      some (0, { stack := [], discovered := [0] }) := by
    with_unfolding_all rfl
  have h2 : c3State.graph.nodeWeight 0 = some c3Ns := by
    with_unfolding_all rfl
  have h3 : collapseNode [] pickFirst c3State 0 =
      Except.error (WFCError.NoValidStatesAfterInvariants 0) := by
    with_unfolding_all rfl
  refine ⟨h1, h2, h3, c3_backtrack_behavior.2.1 c3State _, ?_⟩
  exact c3_backtrack_behavior.2.2 [] pickFirst 0 c3State c3Dfs
    { stack := [], discovered := [0] } [] 0 c3Ns
    (WFCError.NoValidStatesAfterInvariants 0) h1 h2 h3

/-- Sum of a constant over `range n`. -/
theorem sum_map_range_const (n c : ℕ) :
    ((List.range n).map fun _ => c).sum = n * c := by
  induction n with
  | zero => simp
  | succ m ih =>
    rw [List.range_succ, List.map_append, List.sum_append, ih]
    simp [Nat.succ_mul]

/-- Sum of the indicator of `i < n - 1` (scaled by `c`) over `range n`. -/
theorem sum_map_range_ite (n c : ℕ) :
    ((List.range n).map fun i => if i < n - 1 then c else 0).sum =
      (n - 1) * c := by
  cases n with
  | zero => simp
  | succ m =>
    rw [List.range_succ, List.map_append, List.sum_append]
    have hrest : ((List.range m).map fun i => if i < m + 1 - 1 then c else 0) =
        (List.range m).map fun _ => c := by
      apply List.map_congr_left
      intro i hi
      rw [if_pos]
      simpa using List.mem_range.mp hi
    rw [hrest, sum_map_range_const]
    simp

/-- Length of a one-element conditional list. -/
theorem length_ite_singleton {α : Type} (P : Prop) [Decidable P] (a : α) :
    (if P then [a] else []).length = if P then 1 else 0 := by
  split <;> rfl

/-- Node count of `grid_graph`. -/
theorem gridGraph_nodes_length (b : Block) (w h d : ℕ) :
    (gridGraph b (w, h, d)).nodes.length = w * h * d := by
  have inner : ∀ x : ℕ,
      ((List.range h).flatMap fun y => (List.range d).map fun z =>
        NodeState.withPosition b Orientation.O0 (x, y, z)).length = h * d := by
    intro x
    rw [List.length_flatMap]
    simp only [Function.comp_def]
    have hcong : ((List.range h).map fun y => ((List.range d).map fun z =>
        NodeState.withPosition b Orientation.O0 (x, y, z)).length) =
        (List.range h).map fun _ => d := by
      apply List.map_congr_left
      intro y _
      simp
    rw [hcong, sum_map_range_const]
  show ((List.range w).flatMap fun x => (List.range h).flatMap fun y =>
    (List.range d).map fun z =>
      NodeState.withPosition b Orientation.O0 (x, y, z)).length = w * h * d
  rw [List.length_flatMap]
  simp only [Function.comp_def]
  have hcong : ((List.range w).map fun x => ((List.range h).flatMap fun y =>
      (List.range d).map fun z =>
        NodeState.withPosition b Orientation.O0 (x, y, z)).length) =
      (List.range w).map fun _ => h * d := by
    apply List.map_congr_left
    intro x _
    exact inner x
  rw [hcong, sum_map_range_const, Nat.mul_assoc]

/-- Edge count of `grid_graph`. -/
theorem gridGraph_edges_length (b : Block) (w h d : ℕ) :
    (gridGraph b (w, h, d)).edges.length =
      (w - 1) * h * d + w * (h - 1) * d + w * h * (d - 1) := by
  have hcell : ∀ x y z : ℕ,
      (((if x < w - 1 then [(gridIndex h d x y z, gridIndex h d (x + 1) y z)] else []) ++
        (if y < h - 1 then [(gridIndex h d x y z, gridIndex h d x (y + 1) z)] else []) ++
        (if z < d - 1 then [(gridIndex h d x y z, gridIndex h d x y (z + 1))] else [])).length) =
      (if x < w - 1 then 1 else 0) + (if y < h - 1 then 1 else 0) +
        (if z < d - 1 then 1 else 0) := by
    intro x y z
    rw [List.length_append, List.length_append, length_ite_singleton,
      length_ite_singleton, length_ite_singleton]
  have hz : ∀ x y : ℕ,
      (((List.range d).flatMap fun z =>
        (if x < w - 1 then [(gridIndex h d x y z, gridIndex h d (x + 1) y z)] else []) ++
        (if y < h - 1 then [(gridIndex h d x y z, gridIndex h d x (y + 1) z)] else []) ++
        (if z < d - 1 then [(gridIndex h d x y z, gridIndex h d x y (z + 1))] else [])).length) =
      d * (if x < w - 1 then 1 else 0) + d * (if y < h - 1 then 1 else 0) +
        (d - 1) := by
    intro x y
    rw [List.length_flatMap]
    simp only [Function.comp_def]
    have hcong : ((List.range d).map fun z =>
        ((if x < w - 1 then [(gridIndex h d x y z, gridIndex h d (x + 1) y z)] else []) ++
         (if y < h - 1 then [(gridIndex h d x y z, gridIndex h d x (y + 1) z)] else []) ++
         (if z < d - 1 then [(gridIndex h d x y z, gridIndex h d x y (z + 1))] else [])).length) =
        (List.range d).map fun z =>
          ((if x < w - 1 then 1 else 0) + (if y < h - 1 then 1 else 0)) +
            (if z < d - 1 then 1 else 0) := by
      apply List.map_congr_left
      intro z _
      rw [hcell x y z]
    rw [hcong, List.sum_map_add, sum_map_range_const, sum_map_range_ite]
    ring
  have hy : ∀ x : ℕ,
      (((List.range h).flatMap fun y => (List.range d).flatMap fun z =>
        (if x < w - 1 then [(gridIndex h d x y z, gridIndex h d (x + 1) y z)] else []) ++
        (if y < h - 1 then [(gridIndex h d x y z, gridIndex h d x (y + 1) z)] else []) ++
        (if z < d - 1 then [(gridIndex h d x y z, gridIndex h d x y (z + 1))] else [])).length) =
      h * (d * (if x < w - 1 then 1 else 0)) + (h - 1) * d + h * (d - 1) := by
    intro x
    rw [List.length_flatMap]
    simp only [Function.comp_def]
    have hcong : ((List.range h).map fun y => (((List.range d).flatMap fun z =>
        (if x < w - 1 then [(gridIndex h d x y z, gridIndex h d (x + 1) y z)] else []) ++
        (if y < h - 1 then [(gridIndex h d x y z, gridIndex h d x (y + 1) z)] else []) ++
        (if z < d - 1 then [(gridIndex h d x y z, gridIndex h d x y (z + 1))] else [])).length)) =
        (List.range h).map fun y =>
          (d * (if x < w - 1 then 1 else 0) + (d - 1)) +
            (if y < h - 1 then d else 0) := by
      apply List.map_congr_left
      intro y _
      rw [hz x y]
      by_cases hy2 : y < h - 1 <;> simp [hy2] <;> ring
    rw [hcong, List.sum_map_add, sum_map_range_const, sum_map_range_ite]
    ring
  show (((List.range w).flatMap fun x => (List.range h).flatMap fun y =>
      (List.range d).flatMap fun z =>
        (if x < w - 1 then [(gridIndex h d x y z, gridIndex h d (x + 1) y z)] else []) ++
        (if y < h - 1 then [(gridIndex h d x y z, gridIndex h d x (y + 1) z)] else []) ++
        (if z < d - 1 then [(gridIndex h d x y z, gridIndex h d x y (z + 1))] else [])).length) =
    (w - 1) * h * d + w * (h - 1) * d + w * h * (d - 1)
  rw [List.length_flatMap]
  simp only [Function.comp_def]
  have hcong : ((List.range w).map fun x => (((List.range h).flatMap fun y =>
      (List.range d).flatMap fun z =>
        (if x < w - 1 then [(gridIndex h d x y z, gridIndex h d (x + 1) y z)] else []) ++
        (if y < h - 1 then [(gridIndex h d x y z, gridIndex h d x (y + 1) z)] else []) ++
        (if z < d - 1 then [(gridIndex h d x y z, gridIndex h d x y (z + 1))] else [])).length)) =
      (List.range w).map fun x =>
        ((h - 1) * d + h * (d - 1)) + (if x < w - 1 then h * d else 0) := by
    apply List.map_congr_left
    intro x _
    rw [hy x]
    by_cases hx2 : x < w - 1 <;> simp [hx2] <;> ring
  rw [hcong, List.sum_map_add, sum_map_range_const, sum_map_range_ite]
  ring

/-- Indexing a `flatMap` of constant-length blocks. -/
theorem flatMap_getElem {α β : Type} (l : List α) (g : α → List β) (m : ℕ)
    (hg : ∀ a ∈ l, (g a).length = m) :
    ∀ (i j : ℕ) (hi : i < l.length), j < m →
      (l.flatMap g)[i * m + j]? = (g (l.get ⟨i, hi⟩))[j]? := by
  induction l with
  | nil => intro i j hi _; cases hi
  | cons a t ih =>
    intro i j hi hj
    rw [List.flatMap_cons]
    cases i with
    | zero =>
      have hlen : (g a).length = m := hg a (List.mem_cons_self a t)
      rw [List.getElem?_append_left (by omega)]
      have h0 : 0 * m + j = j := by omega
      rw [h0]
      rfl
    | succ i2 =>
      have hlen : (g a).length = m := hg a (List.mem_cons_self a t)
      have hle : (g a).length ≤ (i2 + 1) * m + j := by
        rw [hlen, Nat.succ_mul]
        omega
    
      rw [List.getElem?_append_right hle]
      have harith : (i2 + 1) * m + j - (g a).length = i2 * m + j := by
        rw [hlen, Nat.succ_mul]
        omega
      rw [harith]
      exact ih (fun b hb => hg b (List.mem_cons_of_mem a hb)) i2 j
        (by simpa using Nat.lt_of_succ_lt_succ (by simpa using hi)) hj

/-- Arena index of each grid cell holds the node built for that cell. -/
theorem gridGraph_nodes_get (b : Block) (w h d x y z : ℕ) (hx : x < w)
    (hy : y < h) (hz : z < d) :
    (gridGraph b (w, h, d)).nodes[gridIndex h d x y z]? =
      some (NodeState.withPosition b Orientation.O0 (x, y, z)) := by
  have hinner_len : ∀ x2 ∈ List.range w,
      ((List.range h).flatMap fun y2 => (List.range d).map fun z2 =>
        NodeState.withPosition b Orientation.O0 (x2, y2, z2)).length = h * d := by
    intro x2 _
    rw [List.length_flatMap]
    simp only [Function.comp_def]
    have hcong : ((List.range h).map fun y2 => ((List.range d).map fun z2 =>
        NodeState.withPosition b Orientation.O0 (x2, y2, z2)).length) =
        (List.range h).map fun _ => d := by
      apply List.map_congr_left
      intro y2 _
      simp
    rw [hcong, sum_map_range_const]
  have hj : y * d + z < h * d := by
    have h1 : y * d + z < (y + 1) * d := by
      rw [Nat.succ_mul]
      omega
    have h2 : (y + 1) * d ≤ h * d := Nat.mul_le_mul_right d hy
    omega
  have hidx : gridIndex h d x y z = x * (h * d) + (y * d + z) := by
    unfold gridIndex
    ring
  show ((List.range w).flatMap fun x2 => (List.range h).flatMap fun y2 =>
    (List.range d).map fun z2 =>
      NodeState.withPosition b Orientation.O0 (x2, y2, z2))[gridIndex h d x y z]? =
    some (NodeState.withPosition b Orientation.O0 (x, y, z))
  rw [hidx, flatMap_getElem _ _ (h * d) hinner_len x (y * d + z)
    (by simpa using hx) hj]
  rw [List.get_range]
  have hmid_len : ∀ y2 ∈ List.range h,
      ((List.range d).map fun z2 =>
        NodeState.withPosition b Orientation.O0 (x, y2, z2)).length = d := by
    intro y2 _
    simp
  rw [flatMap_getElem _ _ d hmid_len y z (by simpa using hy) hz]
  rw [List.get_range]
  rw [List.getElem?_map, List.getElem?_range hz]
  rfl

/-- Every `grid_graph` edge leaves a cell for its `+x`, `+y`, or `+z`
neighbor. -/
theorem gridGraph_edges_mem (b : Block) (w h d : ℕ) :
    ∀ e ∈ (gridGraph b (w, h, d)).edges, ∃ x y z, x < w ∧ y < h ∧ z < d ∧
      e.1 = gridIndex h d x y z ∧
      ((x + 1 < w ∧ e.2 = gridIndex h d (x + 1) y z) ∨
       (y + 1 < h ∧ e.2 = gridIndex h d x (y + 1) z) ∨
       (z + 1 < d ∧ e.2 = gridIndex h d x y (z + 1))) := by
  intro e he
  obtain ⟨x, hx, he⟩ := List.mem_flatMap.mp he
  obtain ⟨y, hy, he⟩ := List.mem_flatMap.mp he
  obtain ⟨z, hz, he⟩ := List.mem_flatMap.mp he
  rw [List.mem_range] at hx hy hz
  refine ⟨x, y, z, hx, hy, hz, ?_⟩
  rcases List.mem_append.mp he with he2 | he2
  · rcases List.mem_append.mp he2 with he3 | he3
    · by_cases hcond : x < w - 1
      · rw [if_pos hcond] at he3
        rcases List.mem_singleton.mp he3 with rfl
        exact ⟨rfl, Or.inl ⟨by omega, rfl⟩⟩
      · rw [if_neg hcond] at he3
        cases he3
    · by_cases hcond : y < h - 1
      · rw [if_pos hcond] at he3
        rcases List.mem_singleton.mp he3 with rfl
        exact ⟨rfl, Or.inr (Or.inl ⟨by omega, rfl⟩)⟩
      · rw [if_neg hcond] at he3
        cases he3
  · by_cases hcond : z < d - 1
    · rw [if_pos hcond] at he2
      rcases List.mem_singleton.mp he2 with rfl
      exact ⟨rfl, Or.inr (Or.inr ⟨by omega, rfl⟩)⟩
    · rw [if_neg hcond] at he2
      cases he2

/-- CLAIM C4 — for dimensions at least 1, `grid_graph(w,h,d)` has exactly
`w*h*d` nodes (the cell `(x,y,z)` stored at its arena index) and exactly
`(w-1)hd + w(h-1)d + wh(d-1)` directed edges, every edge going from a cell
to its `+x`, `+y`, or `+z` neighbor only. -/
theorem c4_grid_graph (b : Block) (w h d : ℕ) (hw : 1 ≤ w) (hh : 1 ≤ h)
    (hd : 1 ≤ d) :
    (gridGraph b (w, h, d)).nodes.length = w * h * d ∧
    (gridGraph b (w, h, d)).edges.length =
      (w - 1) * h * d + w * (h - 1) * d + w * h * (d - 1) ∧
    (∀ x y z, x < w → y < h → z < d →
      (gridGraph b (w, h, d)).nodes[gridIndex h d x y z]? =
        some (NodeState.withPosition b Orientation.O0 (x, y, z))) ∧
    (∀ e ∈ (gridGraph b (w, h, d)).edges, ∃ x y z, x < w ∧ y < h ∧ z < d ∧
      e.1 = gridIndex h d x y z ∧
      ((x + 1 < w ∧ e.2 = gridIndex h d (x + 1) y z) ∨
       (y + 1 < h ∧ e.2 = gridIndex h d x (y + 1) z) ∨
       (z + 1 < d ∧ e.2 = gridIndex h d x y (z + 1)))) :=
  ⟨gridGraph_nodes_length b w h d, gridGraph_edges_length b w h d,
   fun x y z hx hy hz => gridGraph_nodes_get b w h d x y z hx hy hz,
   gridGraph_edges_mem b w h d⟩

/-- Witness for C4 on the 2 x 3 x 4 grid: 24 nodes, 46 edges, and the cell
`(1,2,3)` stored at its arena index. -/
theorem c4_grid_graph_witness :
    (1 : ℕ) ≤ 2 ∧
    (gridGraph blk1 (2, 3, 4)).nodes.length = 24 ∧
    (gridGraph blk1 (2, 3, 4)).edges.length = 46 ∧
    (gridGraph blk1 (2, 3, 4)).nodes[gridIndex 3 4 1 2 3]? =
      some (NodeState.withPosition blk1 Orientation.O0 (1, 2, 3)) := by
  have h := c4_grid_graph blk1 2 3 4 (by decide) (by decide) (by decide)
  refine ⟨by decide, ?_, ?_, h.2.2.1 1 2 3 (by decide) (by decide) (by decide)⟩
  · rw [h.1]
  · rw [h.2.1]

end WFC
